import Mathlib

/-!
Shallow embedding of src/pythonanalyze_baseline.py, a single-pass JSONL
log aggregator. Python values decoded by json.loads are modelled by the
Json inductive below; Python dicts are association lists with unique keys
maintained by dictInsert (last assignment wins, first insertion position
kept, matching CPython dict semantics). Numbers keep their raw lexeme:
the program never inspects numeric values, only whether a value is a
string. Machine-level details that the program does not observe
(float formatting, unicode case tables beyond ASCII) are modelled by
their ASCII behavior.
-/

/-- Model of a decoded Python value as produced by json.loads. -/
inductive Json where
| null : Json
| bool : Bool → Json
| num : String → Json
| str : String → Json
| arr : List Json → Json
| obj : List (String × Json) → Json

/-- Python dict lookup on the association-list model. -/
def dictGet : List (String × Json) → String → Option Json
| [], _ => none
| p :: l, k => if p.1 = k then some p.2 else dictGet l k

/-- Python dict assignment: replace the value in place when the key exists,
append at the end otherwise. -/
def dictInsert : List (String × Json) → String → Json → List (String × Json)
| [], k, v => [(k, v)]
| p :: l, k, v => if p.1 = k then (k, v) :: l else p :: dictInsert l k v


/-! ## Python string primitives, modelled over character lists so that they
evaluate by kernel reduction. The whitespace set is the ASCII part of what
Python str.strip removes; str.upper is modelled on ASCII letters. -/

def startsWithChars : List Char → List Char → Option (List Char)
| [], cs => some cs
| _ :: _, [] => none
| a :: ps, c :: cs => if a = c then startsWithChars ps cs else none

def isPyWs (c : Char) : Bool :=
  c = ' ' || c = '\t' || c = '\n' || c = '\r' || c = '\x0b' || c = '\x0c'

/-- Python str.strip with no arguments. -/
def pyStrip (s : String) : String :=
  String.mk (((s.data.dropWhile isPyWs).reverse.dropWhile isPyWs).reverse)

def pyUpperChar (c : Char) : Char :=
  if 'a' ≤ c && c ≤ 'z' then Char.ofNat (c.toNat - 32) else c

/-- Python str.upper. -/
def pyUpper (s : String) : String :=
  String.mk (s.data.map pyUpperChar)

def charsHaveSuffix (s t : List Char) : Bool :=
  match startsWithChars t.reverse s.reverse with
  | some _ => true
  | none => false

/-! ## JSON parser (model of json.loads, source line 21) -/

def isJsonWs (c : Char) : Bool :=
  c = ' ' || c = '\t' || c = '\n' || c = '\r'

def skipWs : List Char → List Char
| [] => []
| c :: cs => if isJsonWs c then skipWs cs else c :: cs

def isJsonDigit (c : Char) : Bool :=
  '0' ≤ c && c ≤ '9'

def spanDigits : List Char → List Char × List Char
| [] => ([], [])
| c :: cs =>
  if isJsonDigit c then
    let p := spanDigits cs
    (c :: p.1, p.2)
  else ([], c :: cs)

def parseIntPart : List Char → Option (List Char × List Char)
| [] => none
| c :: cs =>
  if c = '0' then some ([c], cs)
  else if isJsonDigit c then
    let p := spanDigits cs
    some (c :: p.1, p.2)
  else none

def parseFracPart : List Char → Option (List Char × List Char)
| '.' :: cs =>
  match spanDigits cs with
  | ([], _) => none
  | (ds, rest) => some ('.' :: ds, rest)
| cs => some ([], cs)

def parseExpPart : List Char → Option (List Char × List Char)
| [] => some ([], [])
| c :: cs =>
  if c = 'e' || c = 'E' then
    let sp : List Char × List Char :=
      match cs with
      | s :: cs2 => if s = '+' || s = '-' then ([s], cs2) else ([], s :: cs2)
      | [] => ([], [])
    match spanDigits sp.2 with
    | ([], _) => none
    | (ds, rest) => some (c :: sp.1 ++ ds, rest)
  else some ([], c :: cs)

/-- Parse a JSON number lexeme; the raw text is kept, since the program
never inspects numeric values. -/
def parseNumber (cs : List Char) : Option (List Char × List Char) :=
  let sp : List Char × List Char :=
    match cs with
    | '-' :: rest => (['-'], rest)
    | _ => ([], cs)
  match parseIntPart sp.2 with
  | none => none
  | some (ip, cs2) =>
    match parseFracPart cs2 with
    | none => none
    | some (fp, cs3) =>
      match parseExpPart cs3 with
      | none => none
      | some (ep, rest) => some (sp.1 ++ ip ++ fp ++ ep, rest)

def hexVal (c : Char) : Option Nat :=
  let n := c.toNat
  if 48 ≤ n && n ≤ 57 then some (n - 48)
  else if 97 ≤ n && n ≤ 102 then some (n - 87)
  else if 65 ≤ n && n ≤ 70 then some (n - 55)
  else none

def escChar (e : Char) : Option Char :=
  if e = '"' then some '"'
  else if e = '\\' then some '\\'
  else if e = '/' then some '/'
  else if e = 'b' then some (Char.ofNat 8)
  else if e = 'f' then some (Char.ofNat 12)
  else if e = 'n' then some '\n'
  else if e = 'r' then some '\r'
  else if e = 't' then some '\t'
  else none

/-- Parse the body of a JSON string after the opening quote. -/
def parseJString : Nat → List Char → Option (String × List Char)
| 0, _ => none
| _, [] => none
| fuel + 1, c :: cs =>
  if c = '"' then some ("", cs)
  else if c = '\\' then
    match cs with
    | [] => none
    | e :: cs2 =>
      if e = 'u' then
        match cs2 with
        | a :: b :: c2 :: d :: cs3 =>
          match hexVal a, hexVal b, hexVal c2, hexVal d with
          | some ha, some hb, some hc, some hd =>
            let n := ((ha * 16 + hb) * 16 + hc) * 16 + hd
            (parseJString fuel cs3).map
              (fun p => (String.singleton (Char.ofNat n) ++ p.1, p.2))
          | _, _, _, _ => none
        | _ => none
      else
        match escChar e with
        | some ch =>
          (parseJString fuel cs2).map
            (fun p => (String.singleton ch ++ p.1, p.2))
        | none => none
  else (parseJString fuel cs).map (fun p => (String.singleton c ++ p.1, p.2))


mutual

/-- Parse one JSON value from the character stream. -/
def parseValue : Nat → List Char → Except String (Json × List Char)
| 0, _ => Except.error "Expecting value"
| fuel + 1, input =>
  match skipWs input with
  | [] => Except.error "Expecting value"
  | c :: rest =>
    if c = '"' then
      match parseJString (fuel + 1) rest with
      | some (s, r) => Except.ok (Json.str s, r)
      | none => Except.error "Unterminated string"
    else if c = '\x7b' then
      match skipWs rest with
      | '\x7d' :: r => Except.ok (Json.obj [], r)
      | cs2 => parseMembers fuel cs2 []
    else if c = '[' then
      match skipWs rest with
      | ']' :: r => Except.ok (Json.arr [], r)
      | cs2 => parseElems fuel cs2 []
    else if c = 't' then
      match startsWithChars ['r', 'u', 'e'] rest with
      | some r => Except.ok (Json.bool true, r)
      | none => Except.error "Expecting value"
    else if c = 'f' then
      match startsWithChars ['a', 'l', 's', 'e'] rest with
      | some r => Except.ok (Json.bool false, r)
      | none => Except.error "Expecting value"
    else if c = 'n' then
      match startsWithChars ['u', 'l', 'l'] rest with
      | some r => Except.ok (Json.null, r)
      | none => Except.error "Expecting value"
    else if c = '-' || isJsonDigit c then
      match parseNumber (c :: rest) with
      | some (lex, r) => Except.ok (Json.num (String.mk lex), r)
      | none => Except.error "Expecting value"
    else Except.error "Expecting value"

/-- Parse the elements of a nonempty JSON array. -/
def parseElems : Nat → List Char → List Json → Except String (Json × List Char)
| 0, _, _ => Except.error "Expecting value"
| fuel + 1, cs, acc =>
  match parseValue fuel cs with
  | Except.error m => Except.error m
  | Except.ok (v, r) =>
    match skipWs r with
    | ',' :: r2 => parseElems fuel r2 (acc ++ [v])
    | ']' :: r2 => Except.ok (Json.arr (acc ++ [v]), r2)
    | _ => Except.error "Expecting delimiter"

/-- Parse the members of a nonempty JSON object; duplicate keys follow
Python dict semantics via dictInsert. -/
def parseMembers : Nat → List Char → List (String × Json) →
    Except String (Json × List Char)
| 0, _, _ => Except.error "Expecting value"
| fuel + 1, cs, acc =>
  match skipWs cs with
  | '"' :: r =>
    match parseJString (fuel + 1) r with
    | none => Except.error "Unterminated string"
    | some (k, r2) =>
      match skipWs r2 with
      | ':' :: r3 =>
        match parseValue fuel r3 with
        | Except.error m => Except.error m
        | Except.ok (v, r4) =>
          match skipWs r4 with
          | ',' :: r5 => parseMembers fuel r5 (dictInsert acc k v)
          | '\x7d' :: r5 => Except.ok (Json.obj (dictInsert acc k v), r5)
          | _ => Except.error "Expecting delimiter"
      | _ => Except.error "Expecting colon delimiter"
  | _ => Except.error "Expecting property name"

end

/-- Model of json.loads on one line of text. -/
def json_loads (s : String) : Except String Json :=
  match parseValue (2 * s.length + 4) s.data with
  | Except.error m => Except.error m
  | Except.ok (v, rest) =>
    if (skipWs rest).isEmpty then Except.ok v else Except.error "Extra data"

/-! ## Line-oriented decoder (source lines 9 to 28) -/

/-- One input file as the program observes it: the file name, the lines the
text stream delivered, and an optional I/O failure raised after those lines
(an open failure delivers no lines at all). -/
structure FileData where
  name : String
  lines : List String
  readErr : Option String

/-- Decode error for one unparseable line, source line 24. -/
def mkLineErr (name : String) (lineno : Nat) (msg : String) : String :=
  name ++ ":" ++ toString lineno ++ " JSONDecodeError: " ++ msg

/-- Decode error for a file that failed during reading, source line 26. -/
def mkFileErr (name : String) (msg : String) : String :=
  name ++ ": Could not read file: " ++ msg

/-- The per-line loop of read_jsonl_file, source lines 16 to 24: strip each
line, skip blanks, parse the rest, collecting entries and decode errors.
Line numbers are 1-based over all physical lines. -/
def read_lines (name : String) : Nat → List String → List Json × List String
| _, [] => ([], [])
| lineno, line :: rest =>
  let r := read_lines name (lineno + 1) rest
  let t := pyStrip line
  if t = "" then r
  else
    match json_loads t with
    | Except.ok obj => (obj :: r.1, r.2)
    | Except.error m => (r.1, mkLineErr name lineno m :: r.2)

/-- read_jsonl_file, source lines 9 to 28: entries and errors gathered
before a read failure are kept, then the file-level error is appended. -/
def read_jsonl_file (fd : FileData) : List Json × List String :=
  let r := read_lines fd.name 1 fd.lines
  match fd.readErr with
  | none => r
  | some e => (r.1, r.2 ++ [mkFileErr fd.name e])

/-! ## Classifier (source lines 30 to 34 and 64 to 72) -/

def ALLOWED_STATUS : List String := ["OK", "WARN", "FAIL"]

/-- normalize_status, source lines 30 to 34. The argument is the Python
value of e.get with no default: none models an absent field. -/
def normalize_status (s : Option Json) : String :=
  match s with
  | some (Json.str t) =>
    let u := pyUpper (pyStrip t)
    if ALLOWED_STATUS.contains u then u else "FAIL"
  | _ => "FAIL"

/-- The reserved-record test of source lines 67 and 68: e.get with default
the empty string, compared against the two reserved check names. Only a
string value can be equal to either name. -/
def isReserved (e : Json) : Bool :=
  match e with
  | Json.obj fields =>
    match (dictGet fields "check").getD (Json.str "") with
    | Json.str c => c = "run_start" || c = "run_summary"
    | _ => false
  | _ => false

/-- The record update of source lines 70 and 71: attach the normalized
status under the key underscore-norm-status. -/
def withNorm (fields : List (String × Json)) : List (String × Json) :=
  dictInsert fields "_norm_status" (Json.str (normalize_status (dictGet fields "status")))

/-- The classification loop of source lines 64 to 72. Python attribute
access e.get raises an uncaught AttributeError when the decoded record is
not a dict, which aborts the whole run; that is the error case here. -/
def classify : List Json → Except String (List Json)
| [] => Except.ok []
| e :: rest =>
  match e with
  | Json.obj fields =>
    if isReserved (Json.obj fields) then classify rest
    else
      match classify rest with
      | Except.ok ces => Except.ok (Json.obj (withNorm fields) :: ces)
      | Except.error m => Except.error m
  | _ => Except.error "AttributeError: no attribute get"

/-! ## Aggregator (source lines 36 to 38 and 74 to 85) -/

/-- score_status, source lines 36 to 38. -/
def score_status (status : String) : Nat :=
  if status = "OK" then 0
  else if status = "WARN" then 1
  else if status = "FAIL" then 2
  else 2

/-- The three counters of source line 75. -/
structure Counts where
  ok : Nat
  warn : Nat
  fail : Nat
deriving DecidableEq

/-- counts subscript increment, source line 81. The fallthrough case is
unreachable on classifier output. -/
def bump (c : Counts) (st : String) : Counts :=
  if st = "OK" then { c with ok := c.ok + 1 }
  else if st = "WARN" then { c with warn := c.warn + 1 }
  else if st = "FAIL" then { c with fail := c.fail + 1 }
  else c

/-- The normalized status stored on a classified entry, as read by the
subscript on source line 80. -/
def normOf (e : Json) : String :=
  match e with
  | Json.obj fields =>
    match dictGet fields "_norm_status" with
    | some (Json.str s) => s
    | _ => ""
  | _ => ""

structure AggState where
  counts : Counts
  worst : String
  findings : List Json

/-- One iteration of the summary loop, source lines 79 to 85. -/
def aggStep (s : AggState) (e : Json) : AggState :=
  let st := normOf e
  { counts := bump s.counts st
    worst := if score_status st > score_status s.worst then st else s.worst
    findings := if st = "WARN" || st = "FAIL" then s.findings ++ [e] else s.findings }

/-- The summary loop of source lines 74 to 85. -/
def aggregate (es : List Json) : AggState :=
  es.foldl aggStep { counts := { ok := 0, warn := 0, fail := 0 }, worst := "OK", findings := [] }

/-- The risk mapping of source lines 87 to 94. -/
def risk_of (fail_count : Nat) : String :=
  if fail_count = 0 then "Låg"
  else if fail_count = 1 then "Medel"
  else "Hög"

/-! ## Report writer (source lines 96 to 131) -/

/-- Python repr, as used by str on containers. Scalars print as their
repr; string values are wrapped in single quotes. -/
def pySq : String := String.singleton (Char.ofNat 39)

mutual

def pyRepr : Json → String
| Json.null => "None"
| Json.bool true => "True"
| Json.bool false => "False"
| Json.num raw => raw
| Json.str s => pySq ++ s ++ pySq
| Json.arr xs => "[" ++ pyReprList xs ++ "]"
| Json.obj fs => "\x7b" ++ pyReprFields fs ++ "\x7d"

def pyReprList : List Json → String
| [] => ""
| [x] => pyRepr x
| x :: xs => pyRepr x ++ ", " ++ pyReprList xs

def pyReprFields : List (String × Json) → String
| [] => ""
| [(k, v)] => pySq ++ k ++ pySq ++ ": " ++ pyRepr v
| (k, v) :: fs => pySq ++ k ++ pySq ++ ": " ++ pyRepr v ++ ", " ++ pyReprFields fs

end

/-- Python str, as applied by an f-string to an interpolated value. -/
def pyStr : Json → String
| Json.str s => s
| v => pyRepr v

/-- The value rendered for e.get with a string default, source lines
119 to 121. -/
def pyGetStr (fields : List (String × Json)) (k dflt : String) : String :=
  match dictGet fields k with
  | some v => pyStr v
  | none => dflt

/-- The two lines written per finding, source lines 120 and 121. The
default branch is unreachable: findings are always objects. -/
def renderFinding (e : Json) : String :=
  match e with
  | Json.obj fields =>
    "- **" ++ pyGetStr fields "host" "?" ++ "** / " ++ pyGetStr fields "os" "?" ++
    " / `" ++ pyGetStr fields "check" "?" ++ "` → **" ++
    pyGetStr fields "_norm_status" "None" ++ "**\n" ++
    "  - Detaljer: " ++ pyGetStr fields "details" "" ++ "\n"
  | _ => ""

/-- Everything the report writer emits up to and including the
timestamp marker, source lines 100 and 101. -/
def reportHead : String := "# Security baseline-rapport\n\n**Genererad:** "

/-- Everything the report writer emits after the timestamp line,
source lines 102 to 129. -/
def renderBody (fileNames : List String) (total : Nat) (counts : Counts)
    (worst risk : String) (findings : List Json) (errs : List String) : String :=
  "## Inlästa loggfiler\n" ++
  String.join (fileNames.map (fun n => "- " ++ n ++ "\n")) ++ "\n" ++
  "## Sammanfattning\n" ++
  "- Totalt antal kontroller (exkl. start/summering): " ++ toString total ++ "\n" ++
  "- OK: " ++ toString counts.ok ++ "\n" ++
  "- WARN: " ++ toString counts.warn ++ "\n" ++
  "- FAIL: " ++ toString counts.fail ++ "\n" ++
  "- Värsta status: **" ++ worst ++ "**\n" ++
  "- Bedömd risknivå (enkel modell): **" ++ risk ++ "**\n\n" ++
  "## Avvikelser (WARN/FAIL)\n" ++
  (if findings.isEmpty then "Inga avvikelser identifierades.\n\n"
   else String.join (findings.map renderFinding) ++ "\n") ++
  "## Fel vid inläsning (om några)\n" ++
  (if errs.isEmpty then "Inga inläsningsfel.\n"
   else String.join (errs.map (fun e => "- " ++ e ++ "\n")))

/-- The whole report document written to the output file. -/
def render (now : String) (fileNames : List String) (total : Nat) (counts : Counts)
    (worst risk : String) (findings : List Json) (errs : List String) : String :=
  reportHead ++ now ++ "\n\n" ++
  renderBody fileNames total counts worst risk findings errs

/-! ## Entry point (source lines 40 to 134) -/

/-- glob with pattern star dot jsonl: pathlib.Path.glob matches any name
ending in the extension, hidden names included, since its star also
matches names starting with a dot and the empty stem. -/
def hasJsonlExt (n : String) : Bool :=
  charsHaveSuffix n.data ".jsonl".data

/-- File discovery of source line 52: glob then sort by name. -/
def discoverFiles (files : List FileData) : List FileData :=
  List.insertionSort (fun a b => a.name ≤ b.name)
    (files.filter (fun f => hasJsonlExt f.name))

/-- Entries across the discovered files, in file order, source line 61. -/
def allEntries (lfs : List FileData) : List Json :=
  (lfs.map (fun lf => (read_jsonl_file lf).1)).flatten

/-- Decode errors across the discovered files, in file order, line 62. -/
def allErrors (lfs : List FileData) : List String :=
  (lfs.map (fun lf => (read_jsonl_file lf).2)).flatten

/-- Observable end state of one invocation. A Python process that dies on
an uncaught exception terminates with exit status 1 and writes no report;
that is the crashed case. -/
inductive Outcome where
| exited : Nat → Outcome
| crashed : String → Outcome
| completed : String → Nat → Outcome

def Outcome.exitCode : Outcome → Nat
| Outcome.exited c => c
| Outcome.crashed _ => 1
| Outcome.completed _ c => c

/-- The run environment: the argv length and what the filesystem shows at
the input directory path. -/
structure RunConfig where
  argc : Nat
  dirExists : Bool
  dirIsDir : Bool
  dirFiles : List FileData
  now : String

/-- main, source lines 40 to 134. -/
def main_model (cfg : RunConfig) : Outcome :=
  if cfg.argc ≠ 3 then Outcome.exited 2
  else if !cfg.dirExists || !cfg.dirIsDir then Outcome.exited 2
  else
    let log_files := discoverFiles cfg.dirFiles
    if log_files.isEmpty then Outcome.exited 2
    else
      match classify (allEntries log_files) with
      | Except.error m => Outcome.crashed m
      | Except.ok check_entries =>
        let agg := aggregate check_entries
        let report := render cfg.now (log_files.map (fun f => f.name))
          check_entries.length agg.counts agg.worst (risk_of agg.counts.fail)
          agg.findings (allErrors log_files)
        Outcome.completed report (if agg.counts.fail = 0 then 0 else 1)

/-- The usage and configuration error conditions that make main exit with
code 2, source lines 41 to 55. -/
def isConfigError (cfg : RunConfig) : Bool :=
  decide (cfg.argc ≠ 3) || !cfg.dirExists || !cfg.dirIsDir ||
  (discoverFiles cfg.dirFiles).isEmpty

/-! ## Derived definitions used by the lemmas below -/

/-- The record transformation performed on one retained entry. -/
def addNorm : Json → Json
| Json.obj fields => Json.obj (withNorm fields)
| e => e

def isObj : Json → Bool
| Json.obj _ => true
| _ => false

def countsSum (c : Counts) : Nat := c.ok + c.warn + c.fail

/-- The invariant tying the running worst status to the counters. -/
def AggInv (s : AggState) : Prop :=
  (s.worst = "OK" ∨ s.worst = "WARN" ∨ s.worst = "FAIL") ∧
  (s.worst = "FAIL" ↔ 0 < s.counts.fail) ∧
  (s.worst = "WARN" ↔ 0 < s.counts.warn ∧ s.counts.fail = 0) ∧
  (s.worst = "OK" ↔ s.counts.warn = 0 ∧ s.counts.fail = 0)

/-- What one line contributes to the entry list. -/
def decodeLine (l : String) : Option Json :=
  if pyStrip l = "" then none else (json_loads (pyStrip l)).toOption

/-- What one numbered line contributes to the decode-error list. -/
def lineError (name : String) (p : Nat × String) : Option String :=
  if pyStrip p.2 = "" then none
  else
    match json_loads (pyStrip p.2) with
    | Except.ok _ => none
    | Except.error m => some (mkLineErr name p.1 m)

instance : IsTotal FileData (fun a b => a.name ≤ b.name) :=
  ⟨fun a b => le_total a.name b.name⟩

instance : IsTrans FileData (fun a b => a.name ≤ b.name) :=
  ⟨fun _ _ _ hab hbc => le_trans hab hbc⟩


/-! ## Dictionary lemmas -/

lemma dictGet_dictInsert_self (l : List (String × Json)) (k : String) (v : Json) :
    dictGet (dictInsert l k v) k = some v := by
  induction l with
  | nil => simp [dictInsert, dictGet]
  | cons p t ih =>
    by_cases hp : p.1 = k
    · simp [dictInsert, dictGet, hp]
    · simp [dictInsert, dictGet, hp, ih]

lemma dictGet_dictInsert_ne (l : List (String × Json)) (k k2 : String) (v : Json)
    (h : k2 ≠ k) : dictGet (dictInsert l k v) k2 = dictGet l k2 := by
  have hk : ¬k = k2 := fun hk => h hk.symm
  induction l with
  | nil => simp [dictInsert, dictGet, hk]
  | cons p t ih =>
    by_cases hp : p.1 = k
    · by_cases hp2 : p.1 = k2
      · exact absurd (hp2.symm.trans hp) h
      · simp [dictInsert, dictGet, hp, hp2, hk]
    · by_cases hp2 : p.1 = k2
      · simp [dictInsert, dictGet, hp, hp2, h]
      · simp [dictInsert, dictGet, hp, hp2, ih]

/-! ## Classifier lemmas -/

lemma normalize_status_mem (s : Option Json) :
    normalize_status s = "OK" ∨ normalize_status s = "WARN" ∨ normalize_status s = "FAIL" := by
  match s with
  | none => simp [normalize_status]
  | some Json.null => simp [normalize_status]
  | some (Json.bool b) => simp [normalize_status]
  | some (Json.num r) => simp [normalize_status]
  | some (Json.arr xs) => simp [normalize_status]
  | some (Json.obj fs) => simp [normalize_status]
  | some (Json.str t) =>
    cases hc : ALLOWED_STATUS.contains (pyUpper (pyStrip t)) with
    | false =>
      have hnm : pyUpper (pyStrip t) ∉ ALLOWED_STATUS := by simpa using hc
      simp [normalize_status, hnm]
    | true =>
      have hmem : pyUpper (pyStrip t) ∈ ALLOWED_STATUS := by simpa using hc
      have hval : normalize_status (some (Json.str t)) = pyUpper (pyStrip t) := by
        simp [normalize_status, hmem]
      rw [hval]
      simpa [ALLOWED_STATUS] using hmem

lemma normOf_addNorm (fields : List (String × Json)) :
    normOf (addNorm (Json.obj fields)) = normalize_status (dictGet fields "status") := by
  simp [addNorm, normOf, withNorm, dictGet_dictInsert_self]

lemma classify_ok_eq : ∀ {entries ces : List Json}, classify entries = Except.ok ces →
    ces = (entries.filter (fun e => !isReserved e)).map addNorm := by
  intro entries
  induction entries with
  | nil =>
    intro ces h
    simp only [classify] at h
    cases h
    rfl
  | cons e rest ih =>
    intro ces h
    match e with
    | Json.null => simp [classify] at h
    | Json.bool b => simp [classify] at h
    | Json.num r => simp [classify] at h
    | Json.str s => simp [classify] at h
    | Json.arr xs => simp [classify] at h
    | Json.obj fields =>
      by_cases hres : isReserved (Json.obj fields)
      · simp only [classify, hres, if_true] at h
        simpa [List.filter, hres] using ih h
      · simp only [classify, hres, if_false] at h
        cases hrest : classify rest with
        | error m => rw [hrest] at h; cases h
        | ok ces2 =>
          rw [hrest] at h
          cases h
          simp [List.filter, hres, addNorm, ih hrest]

lemma classify_ok_obj : ∀ {entries ces : List Json}, classify entries = Except.ok ces →
    ∀ e ∈ entries, isObj e = true := by
  intro entries
  induction entries with
  | nil => intro ces h e he; cases he
  | cons e0 rest ih =>
    intro ces h e he
    match e0, h with
    | Json.null, h => simp [classify] at h
    | Json.bool b, h => simp [classify] at h
    | Json.num r, h => simp [classify] at h
    | Json.str s, h => simp [classify] at h
    | Json.arr xs, h => simp [classify] at h
    | Json.obj fields, h =>
      rcases List.mem_cons.mp he with heq | htail
      · subst heq; rfl
      · by_cases hres : isReserved (Json.obj fields)
        · simp only [classify, hres, if_true] at h
          exact ih h e htail
        · simp only [classify, hres, if_false] at h
          cases hrest : classify rest with
          | error m => rw [hrest] at h; cases h
          | ok ces2 => exact ih hrest e htail

lemma classify_norm_mem {entries ces : List Json} (h : classify entries = Except.ok ces) :
    ∀ e2 ∈ ces, normOf e2 = "OK" ∨ normOf e2 = "WARN" ∨ normOf e2 = "FAIL" := by
  intro e2 he2
  rw [classify_ok_eq h] at he2
  obtain ⟨e, he, rfl⟩ := List.mem_map.mp he2
  have hobj : isObj e = true :=
    classify_ok_obj h e (List.mem_filter.mp he).1
  match e, hobj with
  | Json.obj fields, _ =>
    rw [normOf_addNorm]
    exact normalize_status_mem _

/-! ## Aggregator lemmas -/

lemma foldl_aggStep_sum : ∀ (l : List Json) (s : AggState),
    (∀ e ∈ l, normOf e = "OK" ∨ normOf e = "WARN" ∨ normOf e = "FAIL") →
    countsSum (l.foldl aggStep s).counts = countsSum s.counts + l.length := by
  intro l
  induction l with
  | nil => intro s _; simp
  | cons e t ih =>
    intro s hall
    have hstep : countsSum (aggStep s e).counts = countsSum s.counts + 1 := by
      rcases hall e (List.mem_cons_self e t) with h3 | h3 | h3 <;>
        (simp [aggStep, bump, h3, countsSum]; omega)
    rw [List.foldl_cons, ih (aggStep s e) (fun x hx => hall x (List.mem_cons_of_mem e hx)),
      hstep]
    simp [List.length_cons]
    omega

lemma aggStep_inv (s : AggState) (e : Json)
    (hs : AggInv s) (he : normOf e = "OK" ∨ normOf e = "WARN" ∨ normOf e = "FAIL") :
    AggInv (aggStep s e) := by
  obtain ⟨hw3, hF, hW, hO⟩ := hs
  rcases he with h3 | h3 | h3 <;> rcases hw3 with hw | hw | hw <;>
    (simp_all [AggInv, aggStep, bump, score_status]; try omega)

lemma foldl_aggStep_inv : ∀ (l : List Json) (s : AggState),
    (∀ e ∈ l, normOf e = "OK" ∨ normOf e = "WARN" ∨ normOf e = "FAIL") →
    AggInv s → AggInv (l.foldl aggStep s) := by
  intro l
  induction l with
  | nil => intro s _ hs; exact hs
  | cons e t ih =>
    intro s hall hs
    rw [List.foldl_cons]
    exact ih (aggStep s e)
      (fun x hx => hall x (List.mem_cons_of_mem e hx))
      (aggStep_inv s e hs (hall e (List.mem_cons_self e t)))

lemma aggregate_inv {es : List Json}
    (hall : ∀ e ∈ es, normOf e = "OK" ∨ normOf e = "WARN" ∨ normOf e = "FAIL") :
    AggInv (aggregate es) := by
  have hinit : AggInv ⟨⟨0, 0, 0⟩, "OK", []⟩ := by
    constructor
    · left; rfl
    refine ⟨?_, ?_, ?_⟩ <;> simp
  exact foldl_aggStep_inv es ⟨⟨0, 0, 0⟩, "OK", []⟩ hall hinit

lemma aggStep_score (s : AggState) (e : Json) :
    score_status (aggStep s e).worst =
      max (score_status s.worst) (score_status (normOf e)) := by
  by_cases h : score_status (normOf e) > score_status s.worst
  · simp only [aggStep, if_pos h]
    exact (Nat.max_eq_right (Nat.le_of_lt h)).symm
  · simp only [aggStep, if_neg h]
    exact (Nat.max_eq_left (Nat.le_of_not_lt h)).symm

lemma foldl_aggStep_score : ∀ (l : List Json) (s : AggState),
    score_status (l.foldl aggStep s).worst =
      l.foldl (fun m e => max m (score_status (normOf e))) (score_status s.worst) := by
  intro l
  induction l with
  | nil => intro s; rfl
  | cons e t ih =>
    intro s
    rw [List.foldl_cons, List.foldl_cons, ih (aggStep s e), aggStep_score]

lemma foldl_aggStep_findings : ∀ (l : List Json) (s : AggState),
    ∀ f ∈ (l.foldl aggStep s).findings, f ∈ s.findings ∨ f ∈ l := by
  intro l
  induction l with
  | nil => intro s f hf; exact Or.inl hf
  | cons e t ih =>
    intro s f hf
    rw [List.foldl_cons] at hf
    rcases ih (aggStep s e) f hf with hstep | htail
    · by_cases hc : (normOf e = "WARN" || normOf e = "FAIL") = true
      · simp only [aggStep, hc, if_true] at hstep
        rcases List.mem_append.mp hstep with hold | hnew
        · exact Or.inl hold
        · right
          rw [List.mem_singleton.mp hnew]
          exact List.mem_cons_self e t
      · simp only [aggStep, hc, if_false] at hstep
        exact Or.inl hstep
    · exact Or.inr (List.mem_cons_of_mem e htail)

/-! ## Decoder lemmas -/

lemma read_lines_fst : ∀ (lines : List String) (name : String) (n : Nat),
    (read_lines name n lines).1 = lines.filterMap decodeLine := by
  intro lines
  induction lines with
  | nil => intro name n; rfl
  | cons line rest ih =>
    intro name n
    by_cases hb : pyStrip line = ""
    · simp [read_lines, hb, List.filterMap_cons, decodeLine, ih]
    · cases hj : json_loads (pyStrip line) with
      | ok v =>
        simp [read_lines, hb, hj, List.filterMap_cons, decodeLine, Except.toOption, ih]
      | error m =>
        simp [read_lines, hb, hj, List.filterMap_cons, decodeLine, Except.toOption, ih]

lemma read_lines_snd : ∀ (lines : List String) (name : String) (n : Nat),
    (read_lines name n lines).2 = (lines.enumFrom n).filterMap (lineError name) := by
  intro lines
  induction lines with
  | nil => intro name n; rfl
  | cons line rest ih =>
    intro name n
    by_cases hb : pyStrip line = ""
    · simp [read_lines, hb, List.enumFrom, List.filterMap_cons, lineError, ih]
    · cases hj : json_loads (pyStrip line) with
      | ok v =>
        simp [read_lines, hb, hj, List.enumFrom, List.filterMap_cons, lineError, ih]
      | error m =>
        simp [read_lines, hb, hj, List.enumFrom, List.filterMap_cons, lineError, ih]

lemma mem_enumFrom_get : ∀ (l : List String) (n i : Nat) (h : i < l.length),
    (n + i, l.get ⟨i, h⟩) ∈ l.enumFrom n := by
  intro l
  induction l with
  | nil => intro n i h; cases h
  | cons a t ih =>
    intro n i h
    cases i with
    | zero => simp [List.enumFrom]
    | succ j =>
      have hj : j < t.length := Nat.lt_of_succ_lt_succ h
      have harith : n + (j + 1) = (n + 1) + j := by omega
      rw [harith]
      exact List.mem_cons_of_mem _ (ih (n + 1) j hj)

lemma allEntries_append (fs1 fs2 : List FileData) :
    allEntries (fs1 ++ fs2) = allEntries fs1 ++ allEntries fs2 := by
  simp [allEntries]

lemma allErrors_append (fs1 fs2 : List FileData) :
    allErrors (fs1 ++ fs2) = allErrors fs1 ++ allErrors fs2 := by
  simp [allErrors]

lemma allEntries_single (fd : FileData) :
    allEntries [fd] = (read_jsonl_file fd).1 := by
  simp [allEntries]

lemma allErrors_single (fd : FileData) :
    allErrors [fd] = (read_jsonl_file fd).2 := by
  simp [allErrors]

/-! ## Discovery lemmas -/

/-- Two sorted lists of files that are permutations of each other and have
pairwise distinct names are equal. -/
lemma sorted_nodup_perm_eq : ∀ (l1 l2 : List FileData), l1.Perm l2 →
    l1.Sorted (fun a b => a.name ≤ b.name) →
    l2.Sorted (fun a b => a.name ≤ b.name) →
    (l1.map FileData.name).Nodup → l1 = l2 := by
  intro l1
  induction l1 with
  | nil =>
    intro l2 hp _ _ _
    exact (List.Perm.eq_nil hp.symm).symm
  | cons a t ih =>
    intro l2 hp hs1 hs2 hnd
    cases l2 with
    | nil => exact absurd (List.Perm.eq_nil hp) (by simp)
    | cons b t2 =>
      have hab : a ∈ b :: t2 := hp.subset (List.mem_cons_self a t)
      rcases List.mem_cons.mp hab with heq | hmem
      · subst heq
        have htt : t = t2 :=
          ih t2 hp.cons_inv (List.sorted_cons.mp hs1).2 (List.sorted_cons.mp hs2).2
            (List.nodup_cons.mp (by simpa using hnd)).2
        rw [htt]
      · have hba : b ∈ a :: t := hp.symm.subset (List.mem_cons_self b t2)
        have hble : b.name ≤ a.name := (List.sorted_cons.mp hs2).1 a hmem
        have haleb : a.name ≤ b.name := by
          rcases List.mem_cons.mp hba with heq2 | hmem2
          · rw [heq2]
          · exact (List.sorted_cons.mp hs1).1 b hmem2
        have hnames : a.name = b.name := le_antisymm haleb hble
        have hnd2 : ((b :: t2).map FileData.name).Nodup :=
          ((hp.map FileData.name).nodup_iff).mp hnd
        have hnotin : b.name ∉ t2.map FileData.name :=
          (List.nodup_cons.mp (by simpa using hnd2)).1
        exact absurd (hnames ▸ List.mem_map_of_mem FileData.name hmem) hnotin

/-- File discovery is invariant under directory listing order when file
names are distinct. -/
lemma discoverFiles_perm_eq (fs1 fs2 : List FileData) (hp : fs1.Perm fs2)
    (hnd : (fs1.map FileData.name).Nodup) :
    discoverFiles fs1 = discoverFiles fs2 := by
  have hpf : (fs1.filter (fun f => hasJsonlExt f.name)).Perm
      (fs2.filter (fun f => hasJsonlExt f.name)) := hp.filter _
  have hperm : (discoverFiles fs1).Perm (discoverFiles fs2) := by
    unfold discoverFiles
    exact (List.perm_insertionSort _ _).trans
      (hpf.trans (List.perm_insertionSort _ _).symm)
  have hndf : ((fs1.filter (fun f => hasJsonlExt f.name)).map FileData.name).Nodup :=
    List.Nodup.sublist (List.Sublist.map FileData.name (List.filter_sublist fs1)) hnd
  have hnds : ((discoverFiles fs1).map FileData.name).Nodup := by
    unfold discoverFiles
    exact (((List.perm_insertionSort _ _).map FileData.name).nodup_iff).mpr hndf
  exact sorted_nodup_perm_eq _ _ hperm
    (List.sorted_insertionSort _ _) (List.sorted_insertionSort _ _) hnds

lemma isReserved_addNorm (fields : List (String × Json)) :
    isReserved (addNorm (Json.obj fields)) = isReserved (Json.obj fields) := by
  have hne : "check" ≠ "_norm_status" := by decide
  simp [addNorm, isReserved, withNorm, dictGet_dictInsert_ne _ _ _ _ hne]

/-! ## Claim theorems -/

/-- The spec wording of the normalization rule, for comparison against the
source function: FAIL when the status field is absent or not a string,
otherwise the trimmed and upper-cased value when it is one of OK, WARN,
FAIL, and FAIL in every other case. -/
def normalize_status_spec (s : Option Json) : String :=
  match s with
  | some (Json.str t) =>
    let u := pyUpper (pyStrip t)
    if u = "OK" ∨ u = "WARN" ∨ u = "FAIL" then u else "FAIL"
  | _ => "FAIL"

/-- C2: for every record the normalized status is FAIL when the status
field is absent or not a string, otherwise the trimmed upper-cased value
when that value is one of OK, WARN, FAIL, and FAIL otherwise; in
particular ok, Ok with spaces, and OK all normalize to OK, while 42, a
missing field, and banana all normalize to FAIL. -/
theorem claim_C2_normalize :
    (∀ s : Option Json, normalize_status s = normalize_status_spec s) ∧
    normalize_status (some (Json.str "ok")) = "OK" ∧
    normalize_status (some (Json.str " Ok ")) = "OK" ∧
    normalize_status (some (Json.str "OK")) = "OK" ∧
    normalize_status (some (Json.num "42")) = "FAIL" ∧
    normalize_status none = "FAIL" ∧
    normalize_status (some (Json.str "banana")) = "FAIL" := by
  refine ⟨?_, rfl, rfl, rfl, rfl, rfl, rfl⟩
  intro s
  match s with
  | none => rfl
  | some Json.null => rfl
  | some (Json.bool b) => rfl
  | some (Json.num r) => rfl
  | some (Json.arr xs) => rfl
  | some (Json.obj fs) => rfl
  | some (Json.str t) =>
    simp only [normalize_status, normalize_status_spec]
    by_cases hm : pyUpper (pyStrip t) ∈ ALLOWED_STATUS
    · rw [if_pos (by simpa using hm), if_pos (by simpa [ALLOWED_STATUS] using hm)]
    · rw [if_neg (by simpa using hm), if_neg (by simpa [ALLOWED_STATUS] using hm)]

/-- C6: the risk label is a function of the FAIL count alone, lowest at
zero failures, medium at exactly one, highest at two or more, and equal
WARN counts never enter the mapping. -/
theorem claim_C6_risk :
    (∀ n : Nat,
      (risk_of n = "Låg" ↔ n = 0) ∧
      (risk_of n = "Medel" ↔ n = 1) ∧
      (risk_of n = "Hög" ↔ 2 ≤ n)) ∧
    (∀ c1 c2 : Counts, c1.fail = c2.fail → risk_of c1.fail = risk_of c2.fail) := by
  constructor
  · intro n
    match n with
    | 0 => refine ⟨by simp [risk_of], ?_, ?_⟩ <;> simp [risk_of]
    | 1 => refine ⟨?_, by simp [risk_of], ?_⟩ <;> simp [risk_of]
    | k + 2 =>
      have h0 : k + 2 ≠ 0 := by omega
      have h1 : k + 2 ≠ 1 := by omega
      refine ⟨?_, ?_, ?_⟩ <;> (simp [risk_of, h0, h1]; try omega)
  · intro c1 c2 h
    rw [h]

theorem claim_C6_risk_witness :
    risk_of (Counts.mk 0 0 1).fail = risk_of (Counts.mk 0 5 1).fail :=
  claim_C6_risk.2 (Counts.mk 0 0 1) (Counts.mk 0 5 1) rfl

/-- C1: on a completed run every counted record has normalized status OK,
WARN or FAIL, the three counters sum to the number of decoded non-reserved
records, and reserved records enter neither the counts nor the findings. -/
theorem claim_C1_tally (entries ces : List Json) (h : classify entries = Except.ok ces) :
    (∀ e2 ∈ ces, normOf e2 = "OK" ∨ normOf e2 = "WARN" ∨ normOf e2 = "FAIL") ∧
    countsSum (aggregate ces).counts =
      (entries.filter (fun e => !isReserved e)).length ∧
    (∀ e2 ∈ ces, isReserved e2 = false) ∧
    (∀ f ∈ (aggregate ces).findings, f ∈ ces) := by
  have hmem := classify_norm_mem h
  have heq := classify_ok_eq h
  refine ⟨hmem, ?_, ?_, ?_⟩
  · have hsum := foldl_aggStep_sum ces ⟨⟨0, 0, 0⟩, "OK", []⟩ hmem
    have hlen : ces.length = (entries.filter (fun e => !isReserved e)).length := by
      rw [heq, List.length_map]
    calc countsSum (aggregate ces).counts
        = countsSum (Counts.mk 0 0 0) + ces.length := hsum
      _ = ces.length := by simp [countsSum]
      _ = (entries.filter (fun e => !isReserved e)).length := hlen
  · intro e2 he2
    rw [heq] at he2
    obtain ⟨e, he, rfl⟩ := List.mem_map.mp he2
    have hobj : isObj e = true := classify_ok_obj h e (List.mem_filter.mp he).1
    have hres : isReserved e = false := by
      have := (List.mem_filter.mp he).2
      simpa using this
    match e, hobj, hres with
    | Json.obj fields, _, hres => rw [isReserved_addNorm]; exact hres
  · intro f hf
    rcases foldl_aggStep_findings ces ⟨⟨0, 0, 0⟩, "OK", []⟩ f hf with hnil | hces
    · cases hnil
    · exact hces

theorem claim_C1_tally_witness :
    countsSum (aggregate [Json.obj [("check", Json.str "x"), ("status", Json.str "fail"),
        ("_norm_status", Json.str "FAIL")]]).counts =
      (([Json.obj [("check", Json.str "run_start"), ("status", Json.str "fail")],
         Json.obj [("check", Json.str "x"), ("status", Json.str "fail")]] : List Json).filter
        (fun e => !isReserved e)).length :=
  (claim_C1_tally
    [Json.obj [("check", Json.str "run_start"), ("status", Json.str "fail")],
     Json.obj [("check", Json.str "x"), ("status", Json.str "fail")]]
    [Json.obj [("check", Json.str "x"), ("status", Json.str "fail"),
      ("_norm_status", Json.str "FAIL")]] rfl).2.1

/-- C5: on a completed run the worst status is FAIL exactly when the FAIL
count is positive, WARN exactly when the WARN count is positive and the
FAIL count is zero, OK otherwise, and its severity score is the maximum
severity over all classified records. -/
theorem claim_C5_worst (entries ces : List Json) (h : classify entries = Except.ok ces) :
    ((aggregate ces).worst = "FAIL" ↔ 0 < (aggregate ces).counts.fail) ∧
    ((aggregate ces).worst = "WARN" ↔
      0 < (aggregate ces).counts.warn ∧ (aggregate ces).counts.fail = 0) ∧
    ((aggregate ces).worst = "OK" ↔
      (aggregate ces).counts.warn = 0 ∧ (aggregate ces).counts.fail = 0) ∧
    score_status (aggregate ces).worst =
      ces.foldl (fun m e => max m (score_status (normOf e))) 0 := by
  have hinv := aggregate_inv (classify_norm_mem h)
  refine ⟨hinv.2.1, hinv.2.2.1, hinv.2.2.2, ?_⟩
  exact foldl_aggStep_score ces ⟨⟨0, 0, 0⟩, "OK", []⟩

theorem claim_C5_worst_witness :
    (aggregate [Json.obj [("check", Json.str "x"), ("status", Json.str "fail"),
        ("_norm_status", Json.str "FAIL")]]).worst = "FAIL" ↔
      0 < (aggregate [Json.obj [("check", Json.str "x"), ("status", Json.str "fail"),
        ("_norm_status", Json.str "FAIL")]]).counts.fail :=
  (claim_C5_worst
    [Json.obj [("check", Json.str "x"), ("status", Json.str "fail")]]
    [Json.obj [("check", Json.str "x"), ("status", Json.str "fail"),
      ("_norm_status", Json.str "FAIL")]] rfl).1

/-- C3 counterexample: for the non-object line 42 the claim asserts that
classification treats the fields as absent and does not abort; in fact the
classification loop raises an uncaught attribute error on the record. -/
theorem claim_C3_counterexample :
    ¬ ∃ ces, classify [Json.num "42"] = Except.ok ces := by
  intro hex
  obtain ⟨ces, hc⟩ := hex
  simp [classify] at hc

/-- C3 amended: non-object JSON lines are accepted by the decoder and do
produce records, but the classification loop aborts the run with an
uncaught attribute error at the first non-object record; its fields are
never treated as defaulted. -/
theorem claim_C3_nonobject :
    json_loads "42" = Except.ok (Json.num "42") ∧
    read_jsonl_file { name := "a.jsonl", lines := ["42"], readErr := none } =
      ([Json.num "42"], []) ∧
    ∀ (e : Json) (rest : List Json), isObj e = false →
      classify (e :: rest) = Except.error "AttributeError: no attribute get" := by
  refine ⟨by rfl, by rfl, ?_⟩
  intro e rest h
  match e, h with
  | Json.null, _ => rfl
  | Json.bool b, _ => rfl
  | Json.num r, _ => rfl
  | Json.str s, _ => rfl
  | Json.arr xs, _ => rfl
  | Json.obj fs, h => simp [isObj] at h

theorem claim_C3_nonobject_witness :
    classify [Json.num "42"] = Except.error "AttributeError: no attribute get" :=
  claim_C3_nonobject.2.2 (Json.num "42") [] rfl

/-- C4: a file whose read fails before any line is obtained contributes
exactly one decode error, naming the file and the underlying I/O error,
and zero records; the surrounding run processes the remaining files. -/
theorem claim_C4_filefail (fd : FileData) (err : String)
    (hlines : fd.lines = []) (herr : fd.readErr = some err) :
    read_jsonl_file fd = ([], [mkFileErr fd.name err]) ∧
    ∀ fs1 fs2 : List FileData,
      allEntries (fs1 ++ fd :: fs2) = allEntries fs1 ++ allEntries fs2 ∧
      allErrors (fs1 ++ fd :: fs2) =
        allErrors fs1 ++ [mkFileErr fd.name err] ++ allErrors fs2 := by
  have hfile : read_jsonl_file fd = ([], [mkFileErr fd.name err]) := by
    unfold read_jsonl_file
    rw [hlines, herr]
    rfl
  refine ⟨hfile, ?_⟩
  intro fs1 fs2
  constructor
  · have : fd :: fs2 = [fd] ++ fs2 := rfl
    rw [this, allEntries_append, allEntries_append, allEntries_single, hfile]
    rfl
  · have : fd :: fs2 = [fd] ++ fs2 := rfl
    rw [this, allErrors_append, allErrors_append, allErrors_single, hfile]
    simp

theorem claim_C4_filefail_witness :
    read_jsonl_file { name := "bad.jsonl", lines := [], readErr := some "Permission denied" } =
      ([], [mkFileErr "bad.jsonl" "Permission denied"]) :=
  (claim_C4_filefail
    { name := "bad.jsonl", lines := [], readErr := some "Permission denied" }
    "Permission denied" rfl rfl).1

/-- C8: a non-blank line that fails JSON parsing yields a decode error
carrying the file name, the 1-based physical line number and the parser
message; the remaining lines of the file still decode, the error list is
exactly the in-order image of the numbered lines, and the run appends
every file's errors in file order. -/
theorem claim_C8_lineerrors (fd : FileData) (i : Nat) (hi : i < fd.lines.length)
    (m : String) (hnb : pyStrip (fd.lines.get ⟨i, hi⟩) ≠ "")
    (herr : json_loads (pyStrip (fd.lines.get ⟨i, hi⟩)) = Except.error m) :
    mkLineErr fd.name (i + 1) m ∈ (read_jsonl_file fd).2 ∧
    (read_jsonl_file fd).1 = fd.lines.filterMap decodeLine ∧
    (read_lines fd.name 1 fd.lines).2 =
      (fd.lines.enumFrom 1).filterMap (lineError fd.name) ∧
    ∀ fs1 fs2 : List FileData,
      allErrors (fs1 ++ fd :: fs2) =
        allErrors fs1 ++ (read_jsonl_file fd).2 ++ allErrors fs2 := by
  have hmem : mkLineErr fd.name (i + 1) m ∈ (read_lines fd.name 1 fd.lines).2 := by
    rw [read_lines_snd]
    apply List.mem_filterMap.mpr
    refine ⟨(1 + i, fd.lines.get ⟨i, hi⟩), mem_enumFrom_get fd.lines 1 i hi, ?_⟩
    have harith : 1 + i = i + 1 := by omega
    simp only [lineError, hnb, if_neg, herr]
    rw [harith]
    simp [hnb]
  refine ⟨?_, ?_, read_lines_snd fd.lines fd.name 1, ?_⟩
  · unfold read_jsonl_file
    cases hre : fd.readErr with
    | none => exact hmem
    | some e => exact List.mem_append_left _ hmem
  · unfold read_jsonl_file
    cases hre : fd.readErr with
    | none => exact read_lines_fst fd.lines fd.name 1
    | some e => exact read_lines_fst fd.lines fd.name 1
  · intro fs1 fs2
    have : fd :: fs2 = [fd] ++ fs2 := rfl
    rw [this, allErrors_append, allErrors_append, allErrors_single]
    simp

theorem claim_C8_lineerrors_witness :
    mkLineErr "a.jsonl" 2 "Expecting value" ∈
      (read_jsonl_file
        (FileData.mk "a.jsonl" ["\x7b\"check\":\"y\"\x7d", "not-json"] none)).2 :=
  (claim_C8_lineerrors
    (FileData.mk "a.jsonl" ["\x7b\"check\":\"y\"\x7d", "not-json"] none)
    1 (by decide) "Expecting value" (by decide) (by rfl)).1

/-- C10 counterexample: a decoded record that already carries a field named
with the normalized-status key does not keep that original field value;
classification overwrites it, so not every original field is unchanged. -/
theorem claim_C10_counterexample :
    classify [Json.obj [("_norm_status", Json.str "sneaky"), ("check", Json.str "c"),
        ("status", Json.str "ok")]] =
      Except.ok [Json.obj [("_norm_status", Json.str "OK"), ("check", Json.str "c"),
        ("status", Json.str "ok")]] ∧
    dictGet [("_norm_status", Json.str "sneaky"), ("check", Json.str "c"),
      ("status", Json.str "ok")] "_norm_status" = some (Json.str "sneaky") ∧
    dictGet [("_norm_status", Json.str "OK"), ("check", Json.str "c"),
      ("status", Json.str "ok")] "_norm_status" = some (Json.str "OK") ∧
    ("sneaky" : String) ≠ "OK" :=
  ⟨by rfl, by rfl, by rfl, by decide⟩

/-- C10 amended: classification rewrites each retained record by setting
the single normalized-status key, overwriting it when the decoded record
already contains it; every field under any other key keeps its decoded
value, and missing fields are replaced by their render defaults only at
render time. -/
theorem claim_C10_frame (entries ces : List Json) (h : classify entries = Except.ok ces) :
    ces = (entries.filter (fun e => !isReserved e)).map addNorm ∧
    (∀ (fields : List (String × Json)) (k : String), k ≠ "_norm_status" →
      dictGet (withNorm fields) k = dictGet fields k) ∧
    (∀ fields : List (String × Json), dictGet (withNorm fields) "_norm_status" =
      some (Json.str (normalize_status (dictGet fields "status")))) ∧
    (∀ (fields : List (String × Json)) (k d : String), dictGet fields k = none →
      pyGetStr fields k d = d) := by
  refine ⟨classify_ok_eq h, ?_, ?_, ?_⟩
  · intro fields k hk
    exact dictGet_dictInsert_ne fields "_norm_status" k _ hk
  · intro fields
    exact dictGet_dictInsert_self fields "_norm_status" _
  · intro fields k d hnone
    simp [pyGetStr, hnone]

theorem claim_C10_frame_witness :
    ([Json.obj [("check", Json.str "x"), ("status", Json.str "warn"),
        ("_norm_status", Json.str "WARN")]] : List Json) =
      (([Json.obj [("check", Json.str "x"), ("status", Json.str "warn")]] : List Json).filter
        (fun e => !isReserved e)).map addNorm :=
  (claim_C10_frame
    [Json.obj [("check", Json.str "x"), ("status", Json.str "warn")]]
    [Json.obj [("check", Json.str "x"), ("status", Json.str "warn"),
      ("_norm_status", Json.str "WARN")]] rfl).1

/-- C7 counterexample: a run over a directory with one file whose single
line is the non-object value 42 hits no usage or configuration error, yet
it does not complete: the process dies on an uncaught attribute error,
with exit status 1 even though no FAIL finding was counted. -/
theorem claim_C7_counterexample :
    isConfigError (RunConfig.mk 3 true true [FileData.mk "a.jsonl" ["42"] none] "T") = false ∧
    main_model (RunConfig.mk 3 true true [FileData.mk "a.jsonl" ["42"] none] "T") =
      Outcome.crashed "AttributeError: no attribute get" ∧
    (main_model (RunConfig.mk 3 true true [FileData.mk "a.jsonl" ["42"] none] "T")).exitCode
      = 1 :=
  ⟨by rfl, by rfl, by rfl⟩

/-- C7 amended: the exit code is 2 exactly on a usage or configuration
error, and then no report is produced; when the run completes, the exit
code is 1 when the FAIL count is positive and 0 when it is zero, so WARN
findings and decode errors do not affect it; when classification aborts on
a non-object record the process instead dies with exit status 1. -/
theorem claim_C7_exit (cfg : RunConfig) :
    ((main_model cfg = Outcome.exited 2) ↔ isConfigError cfg = true) ∧
    (isConfigError cfg = true → ∀ r c, main_model cfg ≠ Outcome.completed r c) ∧
    (∀ r c, main_model cfg = Outcome.completed r c →
      ∃ ces, classify (allEntries (discoverFiles cfg.dirFiles)) = Except.ok ces ∧
        c = (if (aggregate ces).counts.fail = 0 then 0 else 1)) ∧
    (∀ m, main_model cfg = Outcome.crashed m → (main_model cfg).exitCode = 1) := by
  by_cases ha : cfg.argc = 3
  · cases hde : cfg.dirExists with
    | false =>
      have hm : main_model cfg = Outcome.exited 2 := by
        simp [main_model, hde]
      have hcfg : isConfigError cfg = true := by
        simp [isConfigError, hde]
      refine ⟨by simp [hm, hcfg], ?_, ?_, ?_⟩
      · intro _ r c
        rw [hm]
        intro hcontra
        cases hcontra
      · intro r c hc
        rw [hm] at hc
        cases hc
      · intro m hc
        rw [hm] at hc
        cases hc
    | true =>
      cases hdd : cfg.dirIsDir with
      | false =>
        have hm : main_model cfg = Outcome.exited 2 := by
          simp [main_model, hde, hdd]
        have hcfg : isConfigError cfg = true := by
          simp [isConfigError, hdd]
        refine ⟨by simp [hm, hcfg], ?_, ?_, ?_⟩
        · intro _ r c
          rw [hm]
          intro hcontra
          cases hcontra
        · intro r c hc
          rw [hm] at hc
          cases hc
        · intro m hc
          rw [hm] at hc
          cases hc
      | true =>
        cases hempty : (discoverFiles cfg.dirFiles).isEmpty with
        | true =>
          have hm : main_model cfg = Outcome.exited 2 := by
            simp [main_model, ha, hde, hdd, hempty]
          have hcfg : isConfigError cfg = true := by
            simp [isConfigError, hempty]
          refine ⟨by simp [hm, hcfg], ?_, ?_, ?_⟩
          · intro _ r c
            rw [hm]
            intro hcontra
            cases hcontra
          · intro r c hc
            rw [hm] at hc
            cases hc
          · intro m hc
            rw [hm] at hc
            cases hc
        | false =>
          have hcfg : isConfigError cfg = false := by
            simp [isConfigError, ha, hde, hdd, hempty]
          cases hcl : classify (allEntries (discoverFiles cfg.dirFiles)) with
          | error m0 =>
            have hm : main_model cfg = Outcome.crashed m0 := by
              simp [main_model, ha, hde, hdd, hempty, hcl]
            refine ⟨by simp [hm, hcfg], ?_, ?_, ?_⟩
            · intro hcontra
              rw [hcfg] at hcontra
              cases hcontra
            · intro r c hc
              rw [hm] at hc
              cases hc
            · intro m hc
              rw [hm]
              rfl
          | ok ces =>
            have hm : main_model cfg = Outcome.completed
                (render cfg.now ((discoverFiles cfg.dirFiles).map (fun f => f.name))
                  ces.length (aggregate ces).counts (aggregate ces).worst
                  (risk_of (aggregate ces).counts.fail) (aggregate ces).findings
                  (allErrors (discoverFiles cfg.dirFiles)))
                (if (aggregate ces).counts.fail = 0 then 0 else 1) := by
              simp [main_model, ha, hde, hdd, hempty, hcl]
            refine ⟨by simp [hm, hcfg], ?_, ?_, ?_⟩
            · intro hcontra
              rw [hcfg] at hcontra
              cases hcontra
            · intro r c hc
              rw [hm] at hc
              refine ⟨ces, rfl, ?_⟩
              exact (Outcome.completed.inj hc).2.symm
            · intro m hc
              rw [hm] at hc
              cases hc
  · have hm : main_model cfg = Outcome.exited 2 := by
      simp [main_model, ha]
    have hcfg : isConfigError cfg = true := by
      simp [isConfigError, ha]
    refine ⟨by simp [hm, hcfg], ?_, ?_, ?_⟩
    · intro _ r c
      rw [hm]
      intro hcontra
      cases hcontra
    · intro r c hc
      rw [hm] at hc
      cases hc
    · intro m hc
      rw [hm] at hc
      cases hc

theorem claim_C7_exit_witness :
    (main_model (RunConfig.mk 3 true true [FileData.mk "b.jsonl" ["7"] none] "T")).exitCode
      = 1 :=
  (claim_C7_exit (RunConfig.mk 3 true true [FileData.mk "b.jsonl" ["7"] none] "T")).2.2.2
    "AttributeError: no attribute get" (by rfl)

/-- C9: two runs over identical directory contents, read in any listing
order, discover the same sorted file list; the produced reports are
byte-identical except for the timestamp spliced after the fixed report
heading, and every non-completing outcome is identical outright. -/
theorem claim_C9_determinism (files1 files2 : List FileData) (t1 t2 : String)
    (hp : files1.Perm files2) (hnd : (files1.map FileData.name).Nodup) :
    discoverFiles files1 = discoverFiles files2 ∧
    (main_model (RunConfig.mk 3 true true files1 t1) =
        main_model (RunConfig.mk 3 true true files2 t2) ∨
      ∃ body c,
        main_model (RunConfig.mk 3 true true files1 t1) =
          Outcome.completed (reportHead ++ t1 ++ "\n\n" ++ body) c ∧
        main_model (RunConfig.mk 3 true true files2 t2) =
          Outcome.completed (reportHead ++ t2 ++ "\n\n" ++ body) c) := by
  have hdisc := discoverFiles_perm_eq files1 files2 hp hnd
  refine ⟨hdisc, ?_⟩
  cases hempty : (discoverFiles files2).isEmpty with
  | true =>
    left
    have e1 : main_model (RunConfig.mk 3 true true files1 t1) = Outcome.exited 2 := by
      simp [main_model, hdisc, hempty]
    have e2 : main_model (RunConfig.mk 3 true true files2 t2) = Outcome.exited 2 := by
      simp [main_model, hempty]
    rw [e1, e2]
  | false =>
    cases hcl : classify (allEntries (discoverFiles files2)) with
    | error m =>
      left
      have e1 : main_model (RunConfig.mk 3 true true files1 t1) = Outcome.crashed m := by
        simp [main_model, hdisc, hempty, hcl]
      have e2 : main_model (RunConfig.mk 3 true true files2 t2) = Outcome.crashed m := by
        simp [main_model, hempty, hcl]
      rw [e1, e2]
    | ok ces =>
      right
      refine ⟨renderBody ((discoverFiles files2).map (fun f => f.name)) ces.length
          (aggregate ces).counts (aggregate ces).worst
          (risk_of (aggregate ces).counts.fail) (aggregate ces).findings
          (allErrors (discoverFiles files2)),
        (if (aggregate ces).counts.fail = 0 then 0 else 1), ?_, ?_⟩
      · have e1 : main_model (RunConfig.mk 3 true true files1 t1) = Outcome.completed
            (render t1 ((discoverFiles files2).map (fun f => f.name)) ces.length
              (aggregate ces).counts (aggregate ces).worst
              (risk_of (aggregate ces).counts.fail) (aggregate ces).findings
              (allErrors (discoverFiles files2)))
            (if (aggregate ces).counts.fail = 0 then 0 else 1) := by
          simp [main_model, hdisc, hempty, hcl]
        rw [e1]
        rfl
      · have e2 : main_model (RunConfig.mk 3 true true files2 t2) = Outcome.completed
            (render t2 ((discoverFiles files2).map (fun f => f.name)) ces.length
              (aggregate ces).counts (aggregate ces).worst
              (risk_of (aggregate ces).counts.fail) (aggregate ces).findings
              (allErrors (discoverFiles files2)))
            (if (aggregate ces).counts.fail = 0 then 0 else 1) := by
          simp [main_model, hempty, hcl]
        rw [e2]
        rfl

theorem claim_C9_determinism_witness :
    discoverFiles [FileData.mk "b.jsonl" ["\x7b\"status\":\"ok\"\x7d"] none,
        FileData.mk "a.jsonl" ["\x7b\"status\":\"warn\"\x7d"] none] =
      discoverFiles [FileData.mk "a.jsonl" ["\x7b\"status\":\"warn\"\x7d"] none,
        FileData.mk "b.jsonl" ["\x7b\"status\":\"ok\"\x7d"] none] :=
  (claim_C9_determinism
    [FileData.mk "b.jsonl" ["\x7b\"status\":\"ok\"\x7d"] none,
     FileData.mk "a.jsonl" ["\x7b\"status\":\"warn\"\x7d"] none]
    [FileData.mk "a.jsonl" ["\x7b\"status\":\"warn\"\x7d"] none,
     FileData.mk "b.jsonl" ["\x7b\"status\":\"ok\"\x7d"] none]
    "T1" "T2"
    (List.Perm.swap (FileData.mk "a.jsonl" ["\x7b\"status\":\"warn\"\x7d"] none)
      (FileData.mk "b.jsonl" ["\x7b\"status\":\"ok\"\x7d"] none) [])
    (by decide)).1
